import Mathlib

/-!
Verification of the frontpage blogging application (`app.py`) against its
specification.  The application is a Flask CRUD app; we shallowly embed its
data model (User, Category, Article, article_categories join table), its
form validation, and its request handlers as pure Lean functions over an
explicit database state.  Python strings are embedded as `String`,
machine-level ids as `Nat`, timestamps as `Nat`.
-/

namespace Frontpage

/-! ## Python string operations used by the handlers

`app.py` joins the selected country list with `", ".join(...)` (line 184
and line 244) and splits the stored string with `.split(", ")` (line 251).
We model these on `List Char` (exactly Python's semantics for a non-empty
separator: greedy left-to-right scan for non-overlapping occurrences), and
wrap them for `String`. -/

/-- Prepend a character to the first piece of a split result. -/
def consHead (c : Char) : List (List Char) → List (List Char)
  | [] => [[c]]
  | h :: t => (c :: h) :: t

/-- Python `s.split(", ")` on the character list of `s`. -/
def splitCommaSpace : List Char → List (List Char)
  | [] => [[]]
  | [c] => [[c]]
  | c :: d :: rest =>
    if c = ',' ∧ d = ' ' then [] :: splitCommaSpace rest
    else consHead c (splitCommaSpace (d :: rest))

/-- Python `", ".join(pieces)` on character lists. -/
def joinCommaSpace : List (List Char) → List Char
  | [] => []
  | [x] => x
  | x :: y :: t => x ++ ',' :: ' ' :: joinCommaSpace (y :: t)

/-- `true` when the character list does not contain the two-character
separator `", "` as a contiguous substring. -/
def noCommaSpace : List Char → Bool
  | [] => true
  | [_] => true
  | c :: d :: rest =>
    if c = ',' ∧ d = ' ' then false
    else noCommaSpace (d :: rest)

/-- `", ".join(article_countries)` as performed at app.py lines 184/244. -/
def joinCountries (l : List String) : String :=
  String.mk (joinCommaSpace (l.map String.toList))

/-- `article.country.split(", ")` as performed at app.py line 251. -/
def splitCountries (s : String) : List String :=
  (splitCommaSpace s.toList).map String.mk

/-- Line 251 in full:
`selected_countries = article.country.split(", ") if article.country else []`
(an empty string is falsy in Python). -/
def selectedCountriesOf (country : String) : List String :=
  if country = "" then [] else splitCountries country

/-- `String`-level version of `noCommaSpace`. -/
def noCommaSpaceStr (s : String) : Bool :=
  noCommaSpace s.toList

/-! ## Data model (app.py lines 39-89)

`User` (lines 40-49): id, username, password_hash.  Note that the model
defines **no** `is_admin` column or attribute, and `UserMixin` supplies
only `is_authenticated` / `is_active` / `is_anonymous` / `get_id`.
`Category` (lines 52-57): id, name.
`article_categories` (lines 61-67): join table of (article_id, category_id).
`Article` (lines 71-89): id, title, content, author (denormalized
username), publish_date, country (comma-joined string), download_link,
article_type, source; its `categories` relationship is represented by the
join-table rows. -/

structure UserRec where
  id : Nat
  username : String
  password_hash : String
deriving DecidableEq

structure CategoryRec where
  id : Nat
  name : String
deriving DecidableEq

structure ArticleRec where
  id : Nat
  title : String
  content : String
  author : String
  publish_date : Nat
  country : String
  download_link : String
  article_type : String
  source : String
deriving DecidableEq

/-- The four persisted tables of the single SQLite database. -/
structure DBState where
  users : List UserRec
  categories : List CategoryRec
  articles : List ArticleRec
  article_categories : List (Nat × Nat)
deriving DecidableEq

/-- The list offered as `article_types` (app.py lines 176 and 231). -/
def article_types : List String := ["Hack", "Leak", "News", "Opinion", "Other"]

/-- Autoincrement primary key for a new row: one past the maximum id. -/
def nextId (ids : List Nat) : Nat :=
  ids.foldr max 0 + 1

def nextUserId (users : List UserRec) : Nat := nextId (users.map (·.id))

def nextArticleId (articles : List ArticleRec) : Nat := nextId (articles.map (·.id))

/-! ## Requests and responses -/

inductive Method
  | GET
  | POST
deriving DecidableEq

/-- Redirect targets used by the handlers (`url_for(...)`). -/
inductive Target
  | home
  | loginPage
  | articlePage (id : Nat)
deriving DecidableEq

/-- Responses a handler can produce.  Flash messages are carried verbatim. -/
inductive Resp
  | redirect (t : Target) (flash : Option String)
  | renderRegister (errors : List String)
  | renderLogin (flash : Option String)
  | renderHome (articles : List ArticleRec)
  | renderPublish
  | renderEdit (a : ArticleRec) (selected : List String)
  | renderArticle (a : ArticleRec)
  | renderSource (articles : List ArticleRec) (src : String)
  | notFound
  | internalError (msg : String)
deriving DecidableEq

/-- The registration form fields (app.py lines 92-98). -/
structure RegForm where
  username : String
  password : String
  confirm_password : String
deriving DecidableEq

/-- The fields submitted to the publish/edit routes.  `countries` and
`categories` are the multi-valued `getlist` fields; category ids are
modelled as the numbers they denote. -/
structure ArticleForm where
  title : String
  content : String
  countries : List String
  type : String
  download_link : String
  source : String
  categories : List Nat
deriving DecidableEq

/-! ## Form validation (app.py lines 92-105)

`RegistrationForm`: `DataRequired` on username, password and
confirm_password (WTForms: the field must be non-empty), `EqualTo("password")`
on confirm_password, and `validate_username` rejects a username for which
`User.query.filter_by(username=...).first()` finds a row. -/

/-- The WTForms validation errors of `RegistrationForm` against the current
user table; `validate_on_submit()` succeeds exactly when this is empty. -/
def registrationErrors (users : List UserRec) (form : RegForm) : List String :=
  (if form.username = "" then ["This field is required."] else []) ++
  (if form.password = "" then ["This field is required."] else []) ++
  (if form.confirm_password = "" then ["This field is required."]
   else if form.confirm_password = form.password then [] else
    ["Field must be equal to password."]) ++
  (if (users.find? (fun u => u.username = form.username)).isSome then
    ["That username is already taken. Please choose a different one."] else [])

/-! ## Handlers

Each route is a pure function from the database state (plus the requester
and the submitted form) to a response and the new state.  `@login_required`
routes take the requester as `Option UserRec`: `none` is an unauthenticated
request, routed to the `unauthorized` handler (app.py lines 113-117). -/

/-- The `@login_manager.unauthorized_handler` (lines 113-117): flash a
message and redirect home. -/
def unauthorized : Resp :=
  .redirect .home (some "You need to be logged in to view that page.")

/-- The generic response of `handle_exception` (lines 285-288): any
exception escaping a handler is logged and answered with a 500. -/
def internalErrorResp : Resp := .internalError "An internal error occurred"

/-- Python exceptions relevant to the embedded handlers. -/
inductive PyError
  | attributeError (attr : String)
deriving DecidableEq

/-- Lines 234 and 274: `current_user.username == article.author or
current_user.is_admin`.  Python evaluates the disjunction left to right:
when the requester is the author the right operand is never evaluated;
otherwise `current_user.is_admin` is evaluated, and since `User` (lines
40-49) defines no `is_admin` attribute this raises `AttributeError`. -/
def isAuthorOrAdmin (u : UserRec) (a : ArticleRec) : Except PyError Bool :=
  if u.username = a.author then .ok true
  else .error (.attributeError "is_admin")

/-- `/register` (lines 120-133).  `gen` stands for werkzeug's
`generate_password_hash`. -/
def register_handler (gen : String → String) (authenticated : Bool)
    (method : Method) (form : RegForm) (s : DBState) : Resp × DBState :=
  if authenticated then (.redirect .home none, s)
  else
    match method with
    | .GET => (.renderRegister [], s)
    | .POST =>
      let errs := registrationErrors s.users form
      if errs = [] then
        let u : UserRec :=
          { id := nextUserId s.users
            username := form.username
            password_hash := gen form.password }
        (.redirect .loginPage
          (some "Your account has been created! You are now able to log in"),
         { s with users := s.users ++ [u] })
      else (.renderRegister errs, s)

/-- `/login` (lines 137-149).  `check` stands for werkzeug's
`check_password_hash`; `User.check_password` (lines 48-49) applies it to
the stored hash. -/
def login_handler (check : String → String → Bool) (method : Method)
    (username password : String) (s : DBState) : Resp × DBState :=
  match method with
  | .GET => (.renderLogin none, s)
  | .POST =>
    match s.users.find? (fun u => u.username = username) with
    | some u =>
      if check u.password_hash password then (.redirect .home none, s)
      else (.renderLogin (some "Invalid username or password"), s)
    | none => (.renderLogin (some "Invalid username or password"), s)

/-- The list shown by `/` (lines 161-167): all articles ordered by publish
date descending (`Article.query.order_by(Article.publish_date.desc())`). -/
def homeArticles (s : DBState) : List ArticleRec :=
  s.articles.mergeSort (fun a b => b.publish_date ≤ a.publish_date)

/-- `/` (lines 161-167). -/
def home_handler (s : DBState) : Resp :=
  .renderHome (homeArticles s)

/-- The list shown by `/source/<source>` (lines 262-265):
`Article.query.filter_by(source=source).all()`. -/
def sourceArticles (src : String) (s : DBState) : List ArticleRec :=
  s.articles.filter (fun a => a.source = src)

/-- `/source/<source>` (lines 262-265). -/
def articles_by_source_handler (src : String) (s : DBState) : Resp :=
  .renderSource (sourceArticles src s) src

/-- `/publish` (lines 171-215).  On POST: build the new article from the
form (author from the session identity, countries comma-joined), attach the
categories whose ids appear among the submitted ids
(`Category.query.filter(Category.id.in_(selected_category_ids))`, lines
198-201 — ids matching no row are silently dropped), commit, flash, and
redirect home.  `now` is the commit time supplying the `publish_date`
column default. -/
def publish_handler (requester : Option UserRec) (method : Method)
    (now : Nat) (form : ArticleForm) (s : DBState) : Resp × DBState :=
  match requester with
  | none => (unauthorized, s)
  | some u =>
    match method with
    | .GET => (.renderPublish, s)
    | .POST =>
      let aid := nextArticleId s.articles
      let newArticle : ArticleRec :=
        { id := aid
          title := form.title
          content := form.content
          author := u.username
          publish_date := now
          country := joinCountries form.countries
          download_link := form.download_link
          article_type := form.type
          source := form.source }
      let selected := s.categories.filter (fun c => decide (c.id ∈ form.categories))
      (.redirect .home (some "Article published successfully."),
       { s with
          articles := s.articles ++ [newArticle]
          article_categories :=
            s.article_categories ++ selected.map (fun c => (aid, c.id)) })

/-- `/edit/<article_id>` (lines 226-259).  `get_or_404`, then the
author-or-admin check (an `AttributeError` from it is caught by
`handle_exception` and becomes a 500), then on POST the in-place mutation
of title, content, country, article_type and download_link — and of no
other column — followed by commit, flash and redirect to the article. -/
def edit_article_handler (requester : Option UserRec) (method : Method)
    (article_id : Nat) (form : ArticleForm) (s : DBState) : Resp × DBState :=
  match requester with
  | none => (unauthorized, s)
  | some u =>
    match s.articles.find? (fun a => a.id = article_id) with
    | none => (.notFound, s)
    | some a =>
      match isAuthorOrAdmin u a with
      | .error _ => (internalErrorResp, s)
      | .ok false =>
        (.redirect .home (some "You do not have permission to edit this article."), s)
      | .ok true =>
        match method with
        | .POST =>
          let a' : ArticleRec :=
            { a with
                title := form.title
                content := form.content
                country := joinCountries form.countries
                article_type := form.type
                download_link := form.download_link }
          (.redirect (.articlePage article_id) (some "Article updated successfully."),
           { s with articles := s.articles.map (fun b => if b.id = article_id then a' else b) })
        | .GET => (.renderEdit a (selectedCountriesOf a.country), s)

/-- `/delete_article/<article_id>` (lines 268-281, POST only).
`get_or_404`, the same author-or-admin check as edit, then
`db.session.delete(article)`: the article row is removed and the ORM
relationship cascades the delete to its `article_categories` rows. -/
def delete_article_handler (requester : Option UserRec)
    (article_id : Nat) (s : DBState) : Resp × DBState :=
  match requester with
  | none => (unauthorized, s)
  | some u =>
    match s.articles.find? (fun a => a.id = article_id) with
    | none => (.notFound, s)
    | some a =>
      match isAuthorOrAdmin u a with
      | .error _ => (internalErrorResp, s)
      | .ok false =>
        (.redirect .home (some "You do not have permission to delete this article."), s)
      | .ok true =>
        (.redirect .home (some "Article deleted successfully."),
         { s with
            articles := s.articles.filter (fun b => decide (b.id ≠ article_id))
            article_categories :=
              s.article_categories.filter (fun p => decide (p.1 ≠ article_id)) })

/-! ## Concrete fixtures used by witnesses and counterexamples -/

def demoAlice : UserRec :=
  { id := 1, username := "alice", password_hash := "h1" }

def demoMallory : UserRec :=
  { id := 2, username := "mallory", password_hash := "h2" }

def demoArticle : ArticleRec :=
  { id := 1, title := "T", content := "C", author := "alice", publish_date := 5,
    country := "France", download_link := "d", article_type := "News", source := "S" }

def demoState : DBState :=
  { users := [demoAlice, demoMallory]
    categories := [{ id := 7, name := "Politics" }]
    articles := [demoArticle]
    article_categories := [(1, 7)] }

def demoEditForm : ArticleForm :=
  { title := "T2", content := "C2", countries := ["Kenya", "Ghana"], type := "Leak",
    download_link := "d2", source := "S2", categories := [9] }

def demoRegForm : RegForm :=
  { username := "alice", password := "pw", confirm_password := "pw" }

/-- A concrete stand-in for werkzeug's `generate_password_hash`, used only
to instantiate witnesses: it prefixes a marker character. -/
def demoGen (p : String) : String := String.mk ('#' :: p.toList)

/-- The matching stand-in for werkzeug's `check_password_hash`. -/
def demoCheck (h q : String) : Bool := decide (h = demoGen q)

def demoHashUser : UserRec :=
  { id := 1, username := "alice", password_hash := demoGen "pw1" }

def demoHashState : DBState :=
  { users := [demoHashUser], categories := [], articles := [], article_categories := [] }

def demoPublishForm : ArticleForm :=
  { title := "T3", content := "C3", countries := ["France", "Germany"], type := "News",
    download_link := "dl", source := "S", categories := [7, 99] }

def demoBogusForm : ArticleForm :=
  { title := "T4", content := "C4", countries := ["France"], type := "Bogus",
    download_link := "dl", source := "S", categories := [] }

/-! ## Properties of the country comma-join/split encoding -/

theorem noCommaSpace_head {c d : Char} {t : List Char}
    (h : noCommaSpace (c :: d :: t) = true) : ¬(c = ',' ∧ d = ' ') := by
  intro hcd
  simp only [noCommaSpace, if_pos hcd] at h
  exact Bool.false_ne_true h

theorem noCommaSpace_tail {c : Char} {rest : List Char}
    (h : noCommaSpace (c :: rest) = true) : noCommaSpace rest = true := by
  cases rest with
  | nil => rfl
  | cons d t =>
    by_cases hcd : c = ',' ∧ d = ' '
    · simp only [noCommaSpace, if_pos hcd] at h
      exact absurd h Bool.false_ne_true
    · simpa only [noCommaSpace, if_neg hcd] using h

/-- Splitting a string that contains no separator yields the single piece. -/
theorem splitCommaSpace_of_noCommaSpace :
    ∀ l : List Char, noCommaSpace l = true → splitCommaSpace l = [l] := by
  intro l
  induction l using splitCommaSpace.induct with
  | case1 => intro _; rfl
  | case2 c => intro _; rfl
  | case3 c d rest hcd _ =>
    intro h
    exact absurd hcd (noCommaSpace_head h)
  | case4 c d rest hcd ih =>
    intro h
    have := ih (noCommaSpace_tail h)
    simp only [splitCommaSpace, if_neg hcd, this, consHead]

/-- Splitting a separator-free prefix followed by a separator peels off the
prefix as one piece. -/
theorem splitCommaSpace_append :
    ∀ x s : List Char, noCommaSpace x = true →
      splitCommaSpace (x ++ ',' :: ' ' :: s) = x :: splitCommaSpace s := by
  have hcs : ((',' : Char) = ' ') = False := by decide
  intro x
  induction x with
  | nil =>
    intro s _
    simp [splitCommaSpace]
  | cons c x' ih =>
    intro s h
    cases x' with
    | nil =>
      simp [splitCommaSpace, consHead, hcs]
    | cons d t =>
      have hcd : ¬(c = ',' ∧ d = ' ') := noCommaSpace_head h
      have htail := ih s (noCommaSpace_tail h)
      simp only [List.cons_append] at htail ⊢
      simp only [splitCommaSpace, if_neg hcd, htail, consHead]

/-- Character-level round trip: splitting the join recovers a non-empty list
of separator-free pieces. -/
theorem splitCommaSpace_joinCommaSpace :
    ∀ l : List (List Char), l ≠ [] → (∀ x ∈ l, noCommaSpace x = true) →
      splitCommaSpace (joinCommaSpace l) = l := by
  intro l
  induction l with
  | nil => intro h _; exact absurd rfl h
  | cons x xs ih =>
    intro _ h
    cases xs with
    | nil =>
      exact splitCommaSpace_of_noCommaSpace x (h x (List.mem_cons_self x []))
    | cons y t =>
      have hx : noCommaSpace x = true := h x (List.mem_cons_self x _)
      have hrest : ∀ z ∈ y :: t, noCommaSpace z = true := by
        intro z hz
        exact h z (List.mem_cons_of_mem x hz)
      have hjoin := ih (by simp) hrest
      calc splitCommaSpace (joinCommaSpace (x :: y :: t))
          = splitCommaSpace (x ++ ',' :: ' ' :: joinCommaSpace (y :: t)) := rfl
        _ = x :: splitCommaSpace (joinCommaSpace (y :: t)) :=
            splitCommaSpace_append x _ hx
        _ = x :: y :: t := by rw [hjoin]

theorem string_mk_toList (s : String) : String.mk s.toList = s := rfl

theorem toList_eq_nil {s : String} (h : s.toList = []) : s = "" := by
  calc s = String.mk s.toList := rfl
    _ = String.mk [] := by rw [h]

theorem toList_ne_nil {s : String} (h : s ≠ "") : s.toList ≠ [] :=
  fun he => h (toList_eq_nil he)

theorem mk_ne_empty {l : List Char} (h : l ≠ []) : String.mk l ≠ "" :=
  fun he => h (congrArg String.toList he)

theorem joinCommaSpace_ne_nil {x : List Char} {xs : List (List Char)}
    (hx : x ≠ []) : joinCommaSpace (x :: xs) ≠ [] := by
  cases xs with
  | nil => simpa [joinCommaSpace] using hx
  | cons y t => simp [joinCommaSpace]

/-- C3 (amended): for every list of non-empty selected country names, none
of which contains the separator `", "` as a substring, publishing joins
them into one stored string and the edit form's split recovers exactly the
original list (the empty selection also round-trips, through the
empty-string guard of line 251). -/
theorem countries_roundtrip (l : List String)
    (h : ∀ c ∈ l, c ≠ "" ∧ noCommaSpaceStr c = true) :
    selectedCountriesOf (joinCountries l) = l := by
  cases l with
  | nil => decide
  | cons x xs =>
    have hx := h x (List.mem_cons_self x xs)
    have hxl : x.toList ≠ [] := toList_ne_nil hx.1
    have hnnil : joinCommaSpace ((x :: xs).map String.toList) ≠ [] := by
      simpa using @joinCommaSpace_ne_nil x.toList (xs.map String.toList) hxl
    have hne : joinCountries (x :: xs) ≠ "" := mk_ne_empty hnnil
    rw [selectedCountriesOf, if_neg hne, joinCountries, splitCountries]
    have hlist : (String.mk (joinCommaSpace ((x :: xs).map String.toList))).toList
        = joinCommaSpace ((x :: xs).map String.toList) := rfl
    rw [hlist, splitCommaSpace_joinCommaSpace]
    · rw [List.map_map]
      have hid : (String.mk ∘ String.toList) = id := funext string_mk_toList
      rw [hid, List.map_id]
    · simp
    · intro z hz
      obtain ⟨c, hc, rfl⟩ := List.mem_map.mp hz
      exact (h c hc).2

/-- C3 counterexample: the offered country list contains the real country
name "Bonaire, Sint Eustatius and Saba", which itself contains the
separator `", "`; publishing that single selection and splitting the stored
string yields a two-element list, not the original selection. -/
theorem countries_roundtrip_fails_on_comma_name :
    selectedCountriesOf (joinCountries ["Bonaire, Sint Eustatius and Saba"]) ≠
      ["Bonaire, Sint Eustatius and Saba"] := by decide

/-- Witness for the amended C3 at the concrete selection of the spec. -/
theorem countries_roundtrip_witness :
    selectedCountriesOf (joinCountries ["France", "Germany"]) = ["France", "Germany"] ∧
    joinCountries ["France", "Germany"] = "France, Germany" :=
  ⟨countries_roundtrip ["France", "Germany"] (by decide), by decide⟩

/-! ## C1: rejection of non-author, non-admin edit/delete requests -/

/-- C1 (code behaviour at the claimed rejection): for an authenticated
requester who is not the article's author, the check at lines 234/274
evaluates `current_user.is_admin`, an attribute `User` does not define; the
resulting AttributeError is caught by `handle_exception` and the request is
answered with the generic 500, leaving the database unchanged.  The
permission flash-and-redirect of lines 235-236 and 275-276 is unreachable,
so the claimed redirect-home rejection never happens for such users. -/
theorem non_author_edit_delete_internal_error
    (s : DBState) (u : UserRec) (a : ArticleRec) (article_id : Nat)
    (hfind : s.articles.find? (fun b => b.id = article_id) = some a)
    (hne : u.username ≠ a.author) (m : Method) (form : ArticleForm) :
    edit_article_handler (some u) m article_id form s = (internalErrorResp, s) ∧
    delete_article_handler (some u) article_id s = (internalErrorResp, s) := by
  constructor
  · simp only [edit_article_handler, hfind, isAuthorOrAdmin, if_neg hne]
  · simp only [delete_article_handler, hfind, isAuthorOrAdmin, if_neg hne]

/-- Witness: the authenticated non-author "mallory" requesting edit/delete
of the article authored by "alice" receives the generic 500 and the
database is unchanged. -/
theorem non_author_edit_delete_internal_error_witness :
    demoMallory.username ≠ demoArticle.author ∧
    (edit_article_handler (some demoMallory) .POST 1 demoEditForm demoState =
        (internalErrorResp, demoState) ∧
      delete_article_handler (some demoMallory) 1 demoState =
        (internalErrorResp, demoState)) :=
  ⟨by decide,
   non_author_edit_delete_internal_error demoState demoMallory demoArticle 1
     (by decide) (by decide) .POST demoEditForm⟩

/-! ## C2: which columns an edit POST mutates -/

/-- C2 counterexample: the edit handler never reads the submitted `source`
or `categories` fields.  Editing the demo article (stored source "S", join
rows [(1, 7)]) with a form submitting source "S2" and category ids [9]
leaves the stored source at "S" and the join table at [(1, 7)], refuting
the claim that source and categories are replaced by the submitted
values. -/
theorem edit_ignores_source_and_categories :
    ((edit_article_handler (some demoAlice) .POST 1 demoEditForm demoState).2.articles.map
        (fun a => a.source) = ["S"] ∧
      demoEditForm.source = "S2" ∧ ("S" : String) ≠ "S2") ∧
    ((edit_article_handler (some demoAlice) .POST 1 demoEditForm demoState).2.article_categories
        = [(1, 7)] ∧
      demoEditForm.categories = [9]) := by decide

/-- C2 (amended): a successful POST to the edit route replaces title,
content, country, article_type and download_link with the submitted values,
while id, author, publish_date — and also source and the article's
category join rows, which the handler never touches — are unchanged. -/
theorem edit_post_updates_fields
    (s : DBState) (u : UserRec) (a : ArticleRec) (article_id : Nat) (form : ArticleForm)
    (hfind : s.articles.find? (fun b => b.id = article_id) = some a)
    (hauth : u.username = a.author) :
    (edit_article_handler (some u) .POST article_id form s).1 =
      .redirect (.articlePage article_id) (some "Article updated successfully.") ∧
    (∃ a',
      (edit_article_handler (some u) .POST article_id form s).2.articles =
        s.articles.map (fun b => if b.id = article_id then a' else b) ∧
      a'.title = form.title ∧ a'.content = form.content ∧
      a'.country = joinCountries form.countries ∧
      a'.article_type = form.type ∧ a'.download_link = form.download_link ∧
      a'.id = a.id ∧ a'.author = a.author ∧ a'.publish_date = a.publish_date ∧
      a'.source = a.source) ∧
    (edit_article_handler (some u) .POST article_id form s).2.article_categories =
      s.article_categories ∧
    (edit_article_handler (some u) .POST article_id form s).2.users = s.users ∧
    (edit_article_handler (some u) .POST article_id form s).2.categories = s.categories := by
  have heq : edit_article_handler (some u) .POST article_id form s =
      (.redirect (.articlePage article_id) (some "Article updated successfully."),
       { s with articles := s.articles.map (fun b => if b.id = article_id then
          { a with
              title := form.title
              content := form.content
              country := joinCountries form.countries
              article_type := form.type
              download_link := form.download_link } else b) }) := by
    simp only [edit_article_handler, hfind, isAuthorOrAdmin, if_pos hauth]
  rw [heq]
  exact ⟨rfl,
    ⟨{ a with
        title := form.title
        content := form.content
        country := joinCountries form.countries
        article_type := form.type
        download_link := form.download_link },
      rfl, rfl, rfl, rfl, rfl, rfl, rfl, rfl, rfl, rfl⟩,
    rfl, rfl, rfl⟩

/-- Witness for the amended C2: "alice" edits her article with the demo
form; the five editable columns take the submitted values and the others
keep their stored ones. -/
theorem edit_post_updates_fields_witness :
    demoState.articles.find? (fun b => b.id = 1) = some demoArticle ∧
    demoAlice.username = demoArticle.author ∧
    ((edit_article_handler (some demoAlice) .POST 1 demoEditForm demoState).1 =
        .redirect (.articlePage 1) (some "Article updated successfully.") ∧
      (∃ a',
        (edit_article_handler (some demoAlice) .POST 1 demoEditForm demoState).2.articles =
          demoState.articles.map (fun b => if b.id = 1 then a' else b) ∧
        a'.title = demoEditForm.title ∧ a'.content = demoEditForm.content ∧
        a'.country = joinCountries demoEditForm.countries ∧
        a'.article_type = demoEditForm.type ∧
        a'.download_link = demoEditForm.download_link ∧
        a'.id = demoArticle.id ∧ a'.author = demoArticle.author ∧
        a'.publish_date = demoArticle.publish_date ∧
        a'.source = demoArticle.source) ∧
      (edit_article_handler (some demoAlice) .POST 1 demoEditForm demoState).2.article_categories =
        demoState.article_categories ∧
      (edit_article_handler (some demoAlice) .POST 1 demoEditForm demoState).2.users =
        demoState.users ∧
      (edit_article_handler (some demoAlice) .POST 1 demoEditForm demoState).2.categories =
        demoState.categories) :=
  ⟨by decide, rfl,
   edit_post_updates_fields demoState demoAlice demoArticle 1 demoEditForm (by decide) rfl⟩

/-! ## C4: duplicate usernames are rejected at registration -/

/-- Every list element is bounded by the `foldr max 0` of the list. -/
theorem le_foldr_max : ∀ (ids : List Nat), ∀ x ∈ ids, x ≤ ids.foldr max 0 := by
  intro ids
  induction ids with
  | nil => intro x hx; cases hx
  | cons a l ih =>
    intro x hx
    rcases List.mem_cons.mp hx with h | h
    · subst h; exact Nat.le_max_left _ _
    · exact Nat.le_trans (ih x h) (Nat.le_max_right _ _)

/-- C4: a registration attempt whose username is already taken fails
validation (`validate_username`, lines 100-105), leaves the user table
unchanged under every method and session state, and — when actually
submitted by an unauthenticated requester — re-renders the form with the
field errors; moreover every registration attempt whatsoever preserves
duplicate-freeness of the stored usernames. -/
theorem duplicate_username_registration_rejected
    (gen : String → String) (s : DBState) (form : RegForm)
    (htaken : ∃ u ∈ s.users, u.username = form.username) :
    registrationErrors s.users form ≠ [] ∧
    (∀ auth m, ((register_handler gen auth m form s).2).users = s.users) ∧
    (register_handler gen false .POST form s).1 =
      .renderRegister (registrationErrors s.users form) ∧
    (∀ form₂ auth m, (s.users.map (fun u => u.username)).Nodup →
      (((register_handler gen auth m form₂ s).2).users.map (fun u => u.username)).Nodup) := by
  have hsome : (s.users.find? (fun u => u.username = form.username)).isSome := by
    rw [List.find?_isSome]
    obtain ⟨u, hu, hun⟩ := htaken
    exact ⟨u, hu, by simp [hun]⟩
  have herr : registrationErrors s.users form ≠ [] := by
    simp [registrationErrors, hsome]
  refine ⟨herr, ?_, ?_, ?_⟩
  · intro auth m
    cases auth
    · cases m
      · rfl
      · simp [register_handler, herr]
    · rfl
  · simp [register_handler, herr]
  · intro form₂ auth m hnodup
    cases auth
    · cases m
      · exact hnodup
      · by_cases herr₂ : registrationErrors s.users form₂ = []
        · have hnotin : (s.users.find? (fun u => u.username = form₂.username)).isSome = false := by
            cases hx : (s.users.find? (fun u => u.username = form₂.username)).isSome
            · rfl
            · exfalso
              simp [registrationErrors, hx] at herr₂
          have hfresh : ∀ u ∈ s.users, u.username ≠ form₂.username := by
            intro u hu he
            have hs : (s.users.find? (fun v => v.username = form₂.username)).isSome = true :=
              List.find?_isSome.mpr ⟨u, hu, by simp [he]⟩
            rw [hs] at hnotin
            cases hnotin
          have hnotmem : form₂.username ∉ s.users.map (fun u => u.username) := by
            intro hmem
            obtain ⟨u, hu, he⟩ := List.mem_map.mp hmem
            exact hfresh u hu he
          have husers : ((register_handler gen false .POST form₂ s).2).users =
              s.users ++ [{ id := nextUserId s.users
                            username := form₂.username
                            password_hash := gen form₂.password }] := by
            simp [register_handler, herr₂]
          rw [husers, List.map_append]
          simp only [List.map_cons, List.map_nil]
          rw [List.nodup_append]
          refine ⟨hnodup, List.nodup_singleton _, ?_⟩
          intro x hx hx2
          rw [List.mem_singleton.mp hx2] at hx
          exact hnotmem hx
        · simp only [register_handler]
          rw [if_neg (by simp), if_neg herr₂]
          exact hnodup
    · exact hnodup

/-- Witness: registering "alice" again on the demo state (which already has
user "alice") fails validation, changes nothing and re-renders the form. -/
theorem duplicate_username_registration_rejected_witness :
    registrationErrors demoState.users demoRegForm ≠ [] ∧
    ((register_handler (fun p => p) false .POST demoRegForm demoState).2).users =
      demoState.users ∧
    (register_handler (fun p => p) false .POST demoRegForm demoState).1 =
      .renderRegister (registrationErrors demoState.users demoRegForm) := by
  have h := duplicate_username_registration_rejected (fun p => p) demoState demoRegForm
    (by decide)
  exact ⟨h.1, h.2.1 false .POST, h.2.2.1⟩

/-! ## C5: login succeeds exactly for the registration password -/

theorem demoGen_inj {p q : String} (h : demoGen p = demoGen q) : p = q := by
  have h2 : '#' :: p.toList = '#' :: q.toList := congrArg String.toList h
  injection h2 with _ h3
  calc p = String.mk p.toList := rfl
    _ = String.mk q.toList := by rw [h3]
    _ = q := rfl

theorem demoGen_ne (p : String) : demoGen p ≠ p := by
  intro he
  have h2 : '#' :: p.toList = p.toList := congrArg String.toList he
  have h3 := congrArg List.length h2
  simp at h3

/-- The demo hash satisfies werkzeug's documented contract: verification
succeeds exactly for the hashed password. -/
theorem demoCheck_spec : ∀ p q, demoCheck (demoGen p) q = true ↔ q = p := by
  intro p q
  unfold demoCheck
  rw [decide_eq_true_eq]
  constructor
  · intro h
    exact (demoGen_inj h).symm
  · intro h
    rw [h]

/-- C5: assuming werkzeug's hash contract (`check (gen p) q` succeeds
exactly for `q = p`, and a hash never equals its plaintext), a POST to
`/login` for a stored user succeeds — redirects home — exactly when the
submitted password is the one hashed into that user's row; and every user
row created by registration stores `generate_password_hash(password)`,
never the plaintext password. -/
theorem login_succeeds_iff_registration_password
    (gen : String → String) (check : String → String → Bool)
    (hcheck : ∀ p q, check (gen p) q = true ↔ q = p)
    (hne : ∀ p, gen p ≠ p)
    (s : DBState) (n p₀ : String) (u : UserRec)
    (hfind : s.users.find? (fun v => v.username = n) = some u)
    (hhash : u.password_hash = gen p₀) :
    (∀ q, (login_handler check .POST n q s).1 = .redirect .home none ↔ q = p₀) ∧
    (∀ form s₂, registrationErrors s₂.users form = [] →
      ∃ v, ((register_handler gen false .POST form s₂).2).users = s₂.users ++ [v] ∧
        v.password_hash = gen form.password ∧ v.password_hash ≠ form.password) := by
  constructor
  · intro q
    have heq : login_handler check .POST n q s =
        (if check u.password_hash q then (.redirect .home none, s)
         else (.renderLogin (some "Invalid username or password"), s)) := by
      simp only [login_handler, hfind]
    rw [heq, hhash]
    by_cases hq : check (gen p₀) q = true
    · rw [if_pos hq]
      exact ⟨fun _ => (hcheck p₀ q).mp hq, fun _ => rfl⟩
    · rw [if_neg hq]
      constructor
      · intro hcon
        exact absurd hcon (by simp)
      · intro hq'
        exact absurd ((hcheck p₀ q).mpr hq') hq
  · intro form s₂ hv
    refine ⟨{ id := nextUserId s₂.users
              username := form.username
              password_hash := gen form.password },
      ?_, rfl, hne form.password⟩
    simp [register_handler, hv]

/-- Witness: with the demo hash, "alice" (registered with password "pw1")
logs in with "pw1" and is rejected with "bad". -/
theorem login_succeeds_iff_registration_password_witness :
    ((login_handler demoCheck .POST "alice" "pw1" demoHashState).1 =
      .redirect .home none) ∧
    ¬((login_handler demoCheck .POST "alice" "bad" demoHashState).1 =
      .redirect .home none) := by
  have h := login_succeeds_iff_registration_password demoGen demoCheck demoCheck_spec
    demoGen_ne demoHashState "alice" "pw1" demoHashUser (by decide) rfl
  exact ⟨(h.1 "pw1").mpr rfl, fun hb => absurd ((h.1 "bad").mp hb) (by decide)⟩

/-! ## C6: unauthenticated publish requests -/

/-- C6: every unauthenticated request to `/publish` — GET or POST, whatever
the form — is intercepted by `@login_required` and answered by the
`unauthorized` handler: a flash message and a redirect home, with the
database (in particular the article table) unchanged. -/
theorem unauthenticated_publish_redirects
    (s : DBState) (m : Method) (now : Nat) (form : ArticleForm) :
    publish_handler none m now form s =
      (.redirect .home (some "You need to be logged in to view that page."), s) := rfl

/-! ## C7: authorized delete removes article, join rows, and listings -/

/-- C7: a delete request that passes the authorization check of line 274
(the requester is the author) removes the article row, removes every
article↔category join row of that article, and the article appears neither
in the home listing nor in any source-filtered listing of the resulting
state. -/
theorem authorized_delete_removes_article
    (s : DBState) (u : UserRec) (a : ArticleRec) (article_id : Nat)
    (hfind : s.articles.find? (fun b => b.id = article_id) = some a)
    (hauth : u.username = a.author) :
    (delete_article_handler (some u) article_id s).1 =
      .redirect .home (some "Article deleted successfully.") ∧
    (∀ b ∈ (delete_article_handler (some u) article_id s).2.articles,
      b.id ≠ article_id) ∧
    (∀ p ∈ (delete_article_handler (some u) article_id s).2.article_categories,
      p.1 ≠ article_id) ∧
    (∀ b ∈ homeArticles (delete_article_handler (some u) article_id s).2,
      b.id ≠ article_id) ∧
    (∀ src b, b ∈ sourceArticles src (delete_article_handler (some u) article_id s).2 →
      b.id ≠ article_id) := by
  have heq : delete_article_handler (some u) article_id s =
      (.redirect .home (some "Article deleted successfully."),
       { s with
          articles := s.articles.filter (fun b => decide (b.id ≠ article_id))
          article_categories :=
            s.article_categories.filter (fun p => decide (p.1 ≠ article_id)) }) := by
    simp only [delete_article_handler, hfind, isAuthorOrAdmin, if_pos hauth]
  rw [heq]
  have harticles : ∀ b ∈ s.articles.filter (fun b => decide (b.id ≠ article_id)),
      b.id ≠ article_id := by
    intro b hb
    exact of_decide_eq_true (List.mem_filter.mp hb).2
  refine ⟨rfl, harticles, ?_, ?_, ?_⟩
  · intro p hp
    exact of_decide_eq_true (List.mem_filter.mp hp).2
  · intro b hb
    exact harticles b (List.mem_mergeSort.mp hb)
  · intro src b hb
    exact harticles b (List.mem_filter.mp hb).1

/-- Witness: "alice" deletes her article 1; the row, its join row, and its
listing appearances are all gone. -/
theorem authorized_delete_removes_article_witness :
    (delete_article_handler (some demoAlice) 1 demoState).1 =
      .redirect .home (some "Article deleted successfully.") ∧
    demoArticle ∉ (delete_article_handler (some demoAlice) 1 demoState).2.articles ∧
    (1, 7) ∉ (delete_article_handler (some demoAlice) 1 demoState).2.article_categories ∧
    demoArticle ∉ homeArticles (delete_article_handler (some demoAlice) 1 demoState).2 ∧
    demoArticle ∉ sourceArticles "S" (delete_article_handler (some demoAlice) 1 demoState).2 := by
  have h := authorized_delete_removes_article demoState demoAlice demoArticle 1 (by decide) rfl
  exact ⟨h.1,
    fun hm => h.2.1 demoArticle hm rfl,
    fun hm => h.2.2.1 (1, 7) hm rfl,
    fun hm => h.2.2.2.1 demoArticle hm rfl,
    fun hm => h.2.2.2.2 "S" demoArticle hm rfl⟩

/-! ## C8: categories attached at publish -/

/-- A freshly published article's id is new: it exceeds every stored id. -/
theorem nextArticleId_not_mem (articles : List ArticleRec) :
    ∀ a ∈ articles, a.id ≠ nextArticleId articles := by
  intro a ha he
  have hle : a.id ≤ (articles.map (fun b => b.id)).foldr max 0 :=
    le_foldr_max _ _ (List.mem_map_of_mem _ ha)
  rw [he] at hle
  unfold nextArticleId nextId at hle
  omega

/-- C8: publishing always succeeds with the success flash, and — in a state
whose join rows all reference existing articles — the join rows of the new
article are exactly the existing categories whose id was submitted;
submitted ids matching no Category row are silently dropped. -/
theorem publish_attaches_existing_categories
    (s : DBState) (u : UserRec) (now : Nat) (form : ArticleForm)
    (hri : ∀ p ∈ s.article_categories, ∃ a ∈ s.articles, a.id = p.1) :
    (publish_handler (some u) .POST now form s).1 =
      .redirect .home (some "Article published successfully.") ∧
    (∀ cid, (nextArticleId s.articles, cid) ∈
        (publish_handler (some u) .POST now form s).2.article_categories ↔
      (cid ∈ form.categories ∧ ∃ c ∈ s.categories, c.id = cid)) := by
  refine ⟨rfl, ?_⟩
  intro cid
  have hjoins : (publish_handler (some u) .POST now form s).2.article_categories =
      s.article_categories ++
        (s.categories.filter (fun c => decide (c.id ∈ form.categories))).map
          (fun c => (nextArticleId s.articles, c.id)) := rfl
  rw [hjoins]
  constructor
  · intro hmem
    rcases List.mem_append.mp hmem with hold | hnew
    · obtain ⟨a, ha, hid⟩ := hri _ hold
      exact absurd hid (nextArticleId_not_mem s.articles a ha)
    · obtain ⟨c, hc, he⟩ := List.mem_map.mp hnew
      have hc2 := List.mem_filter.mp hc
      have hcid : c.id = cid := congrArg Prod.snd he
      refine ⟨?_, c, hc2.1, hcid⟩
      rw [← hcid]
      exact of_decide_eq_true hc2.2
  · rintro ⟨hcid, c, hc, he⟩
    apply List.mem_append.mpr
    right
    apply List.mem_map.mpr
    refine ⟨c, List.mem_filter.mpr ⟨hc, decide_eq_true ?_⟩, ?_⟩
    · rw [he]
      exact hcid
    · rw [he]

/-- Witness: publishing with submitted category ids [7, 99] on the demo
state attaches category 7 (which exists) and silently drops 99 (which does
not), while the request still succeeds. -/
theorem publish_attaches_existing_categories_witness :
    (publish_handler (some demoAlice) .POST 9 demoPublishForm demoState).1 =
      .redirect .home (some "Article published successfully.") ∧
    (2, 7) ∈ (publish_handler (some demoAlice) .POST 9 demoPublishForm
      demoState).2.article_categories ∧
    (2, 99) ∉ (publish_handler (some demoAlice) .POST 9 demoPublishForm
      demoState).2.article_categories := by
  have h := publish_attaches_existing_categories demoState demoAlice 9 demoPublishForm
    (by decide)
  refine ⟨h.1, ?_, ?_⟩
  · exact (h.2 7).mpr ⟨by decide, { id := 7, name := "Politics" }, by decide, rfl⟩
  · intro hm
    exact absurd ((h.2 99).mp hm).2 (by decide)

/-! ## C9: register while already authenticated -/

/-- C9: any request to `/register` by an authenticated requester — GET or
POST, whatever the form — is redirected home by lines 122-123 before the
form is even constructed: no user row is created and the form is never
rendered. -/
theorem authenticated_register_redirects
    (gen : String → String) (m : Method) (form : RegForm) (s : DBState) :
    register_handler gen true m form s = (.redirect .home none, s) := rfl

/-! ## C10: article type is stored without validation -/

/-- C10: neither publish nor edit compares the submitted type field against
the offered `article_types` list: whatever string is submitted is stored
verbatim as `article_type` by both handlers. -/
theorem article_type_stored_verbatim
    (s : DBState) (u : UserRec) (a : ArticleRec) (article_id now : Nat)
    (form : ArticleForm)
    (hfind : s.articles.find? (fun b => b.id = article_id) = some a)
    (hauth : u.username = a.author) :
    (∃ b, (publish_handler (some u) .POST now form s).2.articles = s.articles ++ [b] ∧
      b.article_type = form.type) ∧
    (∃ b ∈ (edit_article_handler (some u) .POST article_id form s).2.articles,
      b.id = a.id ∧ b.article_type = form.type) := by
  constructor
  · exact ⟨{ id := nextArticleId s.articles
             title := form.title
             content := form.content
             author := u.username
             publish_date := now
             country := joinCountries form.countries
             download_link := form.download_link
             article_type := form.type
             source := form.source }, rfl, rfl⟩
  · have hmem : a ∈ s.articles := List.mem_of_find?_eq_some hfind
    have hid0 := List.find?_some hfind
    have hid : a.id = article_id := of_decide_eq_true hid0
    have heq : (edit_article_handler (some u) .POST article_id form s).2.articles =
        s.articles.map (fun b => if b.id = article_id then
          { a with
              title := form.title
              content := form.content
              country := joinCountries form.countries
              article_type := form.type
              download_link := form.download_link } else b) := by
      simp only [edit_article_handler, hfind, isAuthorOrAdmin, if_pos hauth]
    rw [heq]
    refine ⟨{ a with
        title := form.title
        content := form.content
        country := joinCountries form.countries
        article_type := form.type
        download_link := form.download_link }, ?_, rfl, rfl⟩
    apply List.mem_map.mpr
    refine ⟨a, hmem, ?_⟩
    simp only [if_pos hid]

/-- Witness: submitting the type "Bogus", which is not among the five
offered labels, is stored verbatim by both publish and edit. -/
theorem article_type_stored_verbatim_witness :
    "Bogus" ∉ article_types ∧
    (∃ b, (publish_handler (some demoAlice) .POST 9 demoBogusForm demoState).2.articles =
        demoState.articles ++ [b] ∧ b.article_type = "Bogus") ∧
    (∃ b ∈ (edit_article_handler (some demoAlice) .POST 1 demoBogusForm
        demoState).2.articles, b.id = demoArticle.id ∧ b.article_type = "Bogus") := by
  have h := article_type_stored_verbatim demoState demoAlice demoArticle 1 9 demoBogusForm
    (by decide) rfl
  exact ⟨by decide, h.1, h.2⟩

end Frontpage
